import Mathlib

/-!
# Vibe-Builder access-control core: a shallow embedding

This file embeds, in Lean, the data model, row-level security policies and
CRUD edge-function handlers of the Vibe-Builder repository
(`supabase/functions/{manage-projects,team-management,generate-scaffold}/index.ts`
and the SQL migration `20241201000002_enhanced_security_schema`), and proves
or refutes the specification's claims about them.

Rows are plain structures, tables are lists of rows, and each handler is a
pure function from a request and a database snapshot to a response and a new
snapshot, translated clause by clause from the TypeScript/SQL source.
PostgREST's `.single()` (which errors on zero or more than one matching row)
is modelled by `singleMatch`.
-/

namespace VibeBuilder

/-- `team_members.role`: CHECK (role IN ('owner','admin','member','guest')). -/
inductive TeamRole
  | owner | admin | member | guest
deriving DecidableEq, Repr

/-- `team_members.status` / `project_collaborators.status`:
CHECK (status IN ('pending','active','suspended','removed')). -/
inductive MemberStatus
  | pending | active | suspended | removed
deriving DecidableEq, Repr

/-- `project_collaborators.role`: CHECK (role IN ('owner','editor','viewer','commenter')). -/
inductive CollabRole
  | owner | editor | viewer | commenter
deriving DecidableEq, Repr

/-- `projects.visibility` (private / team / public). -/
inductive ProjVisibility
  | privateVis | teamVis | publicVis
deriving DecidableEq, Repr

/-- `templates.visibility` (public / premium / team / private / unlisted /
deprecated / under_review). -/
inductive TemplateVisibility
  | publicVis | premium | teamVis | privateVis | unlisted | deprecated | underReview
deriving DecidableEq, Repr

/-- `subscription_tier` values: the initial schema's enum ('free','pro','team',
'enterprise') together with the enhanced schema's monthly/yearly variants. -/
inductive SubscriptionTier
  | free | pro | team | enterprise
  | freeTrial | proMonthly | proYearly | teamMonthly | teamYearly
deriving DecidableEq, Repr

/-- A row of `public.users` (the columns the handlers and policies read). -/
structure UserRow where
  id : Nat
  subscription_tier : SubscriptionTier
  is_active : Bool
  monthly_generations : Nat
  projects_generated : Nat
  current_team_id : Option Nat
  is_team_owner : Bool
  deleted_at : Option Nat
deriving DecidableEq, Repr

/-- A row of `public.projects` (the columns the policies and handlers read). -/
structure ProjectRow where
  id : Nat
  user_id : Nat
  team_id : Option Nat
  visibility : ProjVisibility
  is_public : Bool
  deleted_at : Option Nat
deriving DecidableEq, Repr

/-- A row of `public.team_members`.  `user_id` is an `Option` because
`handleInviteMember` inserts `existingUser?.id || null` for invitations sent
to an e-mail address with no existing account. -/
structure TeamMemberRow where
  id : Nat
  team_id : Nat
  user_id : Option Nat
  role : TeamRole
  status : MemberStatus
  invitation_token : Option Nat
deriving DecidableEq, Repr

/-- A row of `public.project_collaborators`. -/
structure ProjectCollaboratorRow where
  project_id : Nat
  user_id : Nat
  role : CollabRole
  status : MemberStatus
deriving DecidableEq, Repr

/-- A row of `public.teams` (the columns the handlers read). -/
structure TeamRow where
  id : Nat
  slug : String
  member_limit : Nat
  created_by : Nat
deriving DecidableEq, Repr

/-- A row of `public.templates` (the columns `handleGetTemplate` and
`checkTemplateAccess` read). -/
structure TemplateRow where
  id : Nat
  created_by : Nat
  team_id : Option Nat
  visibility : TemplateVisibility
  is_approved : Bool
  deleted_at : Option Nat
  view_count : Nat
deriving DecidableEq, Repr

/-- PostgREST `.single()`: succeeds exactly when the query matches one row;
zero rows or several rows produce an error (`some` vs `none`). -/
def singleMatch (l : List α) (p : α → Bool) : Option α :=
  match l.filter p with
  | [x] => some x
  | _ => none

/-! ## C1: the `projects_select_access` row-level security policy -/

/-- The RLS policy `projects_select_access` on `public.projects`
(migration 20241201000002, `FOR SELECT USING (...)`), as a boolean predicate
over the acting user id `uid`, the candidate project row and snapshots of the
`team_members` and `project_collaborators` tables. -/
def projects_select_access (uid : Nat) (p : ProjectRow)
    (tms : List TeamMemberRow) (pcs : List ProjectCollaboratorRow) : Bool :=
  p.deleted_at == none &&
    (p.user_id == uid ||
     (match p.team_id with
      | some t =>
          tms.any fun tm =>
            tm.team_id == t && tm.user_id == some uid && tm.status == .active
      | none => false) ||
     pcs.any (fun pc =>
        pc.project_id == p.id && pc.user_id == uid && pc.status == .active) ||
     (p.visibility == .publicVis && p.is_public))

/-- The specification's wording of the project-view rule, for comparison with
`projects_select_access`: owner, or active team member (when the project has a
team), or active collaborator in any role, or public-and-isPublic; in every
branch the project is not soft-deleted. -/
def canViewProjectSpec (uid : Nat) (p : ProjectRow)
    (tms : List TeamMemberRow) (pcs : List ProjectCollaboratorRow) : Prop :=
  p.deleted_at = none ∧
    (p.user_id = uid ∨
     (∃ t, p.team_id = some t ∧
        ∃ tm ∈ tms, tm.team_id = t ∧ tm.user_id = some uid ∧
          tm.status = MemberStatus.active) ∨
     (∃ pc ∈ pcs, pc.project_id = p.id ∧ pc.user_id = uid ∧
        pc.status = MemberStatus.active) ∨
     (p.visibility = ProjVisibility.publicVis ∧ p.is_public = true))

/-! ## Template marketplace (`manage-projects/index.ts`, second service) -/

/-- The paid tiers accepted by `checkTemplateAccess`:
`['pro_monthly','pro_yearly','team_monthly','team_yearly','enterprise']`. -/
def premiumTiers : List SubscriptionTier :=
  [.proMonthly, .proYearly, .teamMonthly, .teamYearly, .enterprise]

/-- `checkTemplateAccess(supabase, template, user)`.  Public and unlisted
templates are always accessible; otherwise the caller must be authenticated;
the creator always has access; `premium` checks the caller's subscription
tier against `premiumTiers`; `team` checks for a membership row in
`active` status; every other case (notably `private` for a non-creator)
returns `false`.  The two `.single()` user/membership lookups are
`singleMatch`. -/
def checkTemplateAccess (users : List UserRow) (tms : List TeamMemberRow)
    (tpl : TemplateRow) (user : Option Nat) : Bool :=
  if tpl.visibility == .publicVis || tpl.visibility == .unlisted then
    true
  else
    match user with
    | none => false
    | some uid =>
      if tpl.created_by == uid then
        true
      else if tpl.visibility == .premium then
        match singleMatch users (fun u => u.id == uid) with
        | some u => premiumTiers.contains u.subscription_tier
        | none => false
      else if tpl.visibility == .teamVis then
        match tpl.team_id with
        | some t =>
          match singleMatch tms
              (fun tm => tm.team_id == t && tm.user_id == some uid) with
          | some m => m.status == .active
          | none => false
        | none => false
      else
        false

/-- Responses of `handleGetTemplate`: 200 with the row, 403 `'Access denied'`,
404 `'Template not found'` (dead code: `.single()` already errors on zero
rows), or 500 `'Failed to fetch template'` from the catch block. -/
inductive GetTemplateResult
  | ok (t : TemplateRow)
  | accessDenied
  | notFound
  | fetchError
deriving DecidableEq, Repr

/-- `handleGetTemplate(supabase, templateId, user)`: select the non-deleted
template by id with `.single()` (error → 500), check `checkTemplateAccess`
(denied → 403), then increment `view_count` and return the row. -/
def handleGetTemplate (templates : List TemplateRow) (users : List UserRow)
    (tms : List TeamMemberRow) (tid : Nat) (user : Option Nat) :
    GetTemplateResult × List TemplateRow :=
  match singleMatch templates (fun t => t.id == tid && t.deleted_at == none) with
  | none => (.fetchError, templates)
  | some tpl =>
    if checkTemplateAccess users tms tpl user then
      (.ok tpl, templates.map fun t =>
        if t.id == tid then { t with view_count := tpl.view_count + 1 } else t)
    else
      (.accessDenied, templates)

/-! ## Project CRUD (`manage-projects/index.ts`, first service) -/

/-- Responses of `handleGetProjects`: the owned list, a `.single()` row, or
the catch block's 500 `'Failed to fetch projects'` (also produced when the
`.single()` query matches no row). -/
inductive GetProjectsResult
  | list (rows : List ProjectRow)
  | single (row : ProjectRow)
  | fetchFailed
deriving DecidableEq, Repr

/-- `handleGetProjects(supabase, userId, projectId?)`: the query always
filters `.eq('user_id', userId)`; with a `projectId` it additionally filters
`.eq('id', projectId)` and applies `.single()` (an error is caught and
reported as the 500 response). -/
def handleGetProjects (projects : List ProjectRow) (uid : Nat)
    (projectId : Option Nat) : GetProjectsResult :=
  let owned := projects.filter (fun p => p.user_id == uid)
  match projectId with
  | none => .list owned
  | some pid =>
    match singleMatch owned (fun p => p.id == pid) with
    | some p => .single p
    | none => .fetchFailed

/-- Responses of `handleDeleteProject`: 200 success or the 404
`'Project not found or access denied'`. -/
inductive DeleteProjectResult
  | success
  | notFoundOrDenied
deriving DecidableEq, Repr

/-- `handleDeleteProject(supabase, userId, projectId)`: read the row's
`user_id` with `.single()`; if absent or not owned by the caller, 404;
otherwise `.delete().eq('id', projectId)` — a physical row removal. -/
def handleDeleteProject (projects : List ProjectRow) (uid : Nat) (pid : Nat) :
    DeleteProjectResult × List ProjectRow :=
  match singleMatch projects (fun p => p.id == pid) with
  | none => (.notFoundOrDenied, projects)
  | some p =>
    if p.user_id == uid then
      (.success, projects.filter (fun q => !(q.id == pid)))
    else
      (.notFoundOrDenied, projects)

/-! ## Scaffold generation (`generate-scaffold/index.ts`) -/

/-- The handler's `limits` object: `{ free: 3, pro: 50, team: 100,
enterprise: -1 }`.  A tier that is not one of those four keys yields
JavaScript `undefined`, modelled as `none`. -/
def generationLimits : SubscriptionTier → Option Int
  | .free => some 3
  | .pro => some 50
  | .team => some 100
  | .enterprise => some (-1)
  | _ => none

/-- The guard `userLimit !== -1 && userData.monthly_generations >= userLimit`.
When `userLimit` is `undefined` (`none`), `n >= undefined` evaluates to
`false` in JavaScript, so the request is never blocked. -/
def quotaBlocked : Option Int → Nat → Bool
  | some l, n => l != -1 && decide (l ≤ (n : Int))
  | none, _ => false

/-- The request body of `GenerateScaffold` (`!appIdea` / `!frontendStack`
are the empty-string falsiness checks). -/
structure GenRequest where
  appIdea : String
  frontendStack : String
  backendStack : String
  authType : String
  templateId : Option Nat
deriving DecidableEq, Repr

/-- The slice of the database touched by the scaffold handler: the `users`
and `projects` tables plus the number of `usage_analytics` rows written. -/
structure ScaffoldDB where
  users : List UserRow
  projects : List ProjectRow
  analytics : Nat
deriving DecidableEq, Repr

/-- Responses of the scaffold handler: 404 `'User not found'`,
429 `'Monthly generation limit reached'` carrying `limit` and `current`,
400 for missing fields, or 200 with the new project. -/
inductive GenerateResult
  | userNotFound
  | quotaExceeded (limit : Int) (current : Nat)
  | missingFields
  | ok (projectId : Nat)
deriving DecidableEq, Repr

/-- The authenticated part of the `generate-scaffold` `serve` body, as a pure
function of the database snapshot, the caller, the request body and the id
the insert will assign.  The returned `Bool` records whether
`generateScaffoldWithAI` (the external LLM call) was invoked.  The counter
update writes `userData.monthly_generations + 1` — the value read at the
start of the request, not a relative increment. -/
def generateScaffoldServe (db : ScaffoldDB) (uid : Nat) (body : GenRequest)
    (newProjectId : Nat) : GenerateResult × ScaffoldDB × Bool :=
  match singleMatch db.users (fun u => u.id == uid) with
  | none => (.userNotFound, db, false)
  | some u =>
    let userLimit := generationLimits u.subscription_tier
    if quotaBlocked userLimit u.monthly_generations then
      (.quotaExceeded (userLimit.getD (-1)) u.monthly_generations, db, false)
    else if body.appIdea == "" || body.frontendStack == "" then
      (.missingFields, db, false)
    else
      let project : ProjectRow :=
        { id := newProjectId, user_id := uid, team_id := none,
          visibility := .privateVis, is_public := false, deleted_at := none }
      let db1 : ScaffoldDB := { db with projects := db.projects ++ [project] }
      let db2 : ScaffoldDB := { db1 with
        users := db1.users.map fun w =>
          if w.id == uid then
            { w with monthly_generations := u.monthly_generations + 1,
                     projects_generated := u.projects_generated + 1 }
          else w }
      (.ok newProjectId, { db2 with analytics := db2.analytics + 1 }, true)

/-! ## Interleaved scaffold requests (for the quota-atomicity claim)

Each request touches the shared store twice: first the `SELECT` of the
user row followed by the limit comparison, then (if it passed) the project
`INSERT` and the counter `UPDATE` that writes `snapshot + 1`.  A thread is
therefore a two-phase step machine, and a schedule is the list of thread
indices in execution order.  The request body is fixed and valid; validation
is thread-local and does not touch the store. -/

/-- Phase of one in-flight `GenerateScaffold` request. -/
inductive ThreadPhase
  | start
  | passed (snapshotGens : Nat) (snapshotProjects : Nat)
  | done (success : Bool)
deriving DecidableEq, Repr

/-- A store shared by concurrent requests plus the per-thread phases. -/
structure ConcState where
  db : ScaffoldDB
  threads : List ThreadPhase
deriving DecidableEq, Repr

/-- Replace thread `i`'s phase. -/
def setThread (c : ConcState) (i : Nat) (ph : ThreadPhase) : ConcState :=
  { c with threads := c.threads.set i ph }

/-- Run one atomic phase of thread `i` (all threads act for user `uid`):
from `start`, the read-and-check half of the handler; from `passed`, the
insert-and-increment half, which writes `snapshot + 1` into
`monthly_generations` exactly as the source does. -/
def concStep (uid : Nat) (c : ConcState) (i : Nat) : ConcState :=
  match c.threads.get? i with
  | none => c
  | some .start =>
    match singleMatch c.db.users (fun u => u.id == uid) with
    | none => setThread c i (.done false)
    | some u =>
      if quotaBlocked (generationLimits u.subscription_tier)
          u.monthly_generations then
        setThread c i (.done false)
      else
        setThread c i (.passed u.monthly_generations u.projects_generated)
  | some (.passed g pg) =>
    let project : ProjectRow :=
      { id := c.db.projects.length, user_id := uid, team_id := none,
        visibility := .privateVis, is_public := false, deleted_at := none }
    let db1 := { c.db with projects := c.db.projects ++ [project] }
    let db2 := { db1 with
      users := db1.users.map fun w =>
        if w.id == uid then
          { w with monthly_generations := g + 1, projects_generated := pg + 1 }
        else w,
      analytics := db1.analytics + 1 }
    setThread { c with db := db2 } i (.done true)
  | some (.done _) => c

/-- Run a schedule: the interleaving is the order of thread indices. -/
def runSched (uid : Nat) (c : ConcState) (sched : List Nat) : ConcState :=
  sched.foldl (concStep uid) c

/-- How many requests of the batch completed successfully. -/
def successCount (c : ConcState) : Nat :=
  c.threads.countP (fun t => t == .done true)

/-! ## Team management (`team-management/index.ts`) -/

/-- [a-z0-9] after lower-casing. -/
def isSlugChar (c : Char) : Bool :=
  (97 ≤ c.toNat && c.toNat ≤ 122) || (48 ≤ c.toNat && c.toNat ≤ 57)

/-- One pass of `.replace(/[^a-z0-9]+/g, '-')`; the flag records whether the
previous character belonged to a non-alphanumeric run (whose hyphen has
already been emitted). -/
def collapseAux : Bool → List Char → List Char
  | _, [] => []
  | inRun, c :: rest =>
    if isSlugChar c then
      c :: collapseAux false rest
    else if inRun then
      collapseAux true rest
    else
      '-' :: collapseAux true rest

/-- `.replace(/[^a-z0-9]+/g, '-')`: replace each maximal run of
non-alphanumeric characters with a single hyphen. -/
def collapseRuns (cs : List Char) : List Char := collapseAux false cs

/-- `.replace(/(^-|-$)/g, '')`: drop one leading and one trailing hyphen. -/
def trimHyphens (cs : List Char) : List Char :=
  let cs1 := match cs with
    | '-' :: rest => rest
    | other => other
  match cs1.reverse with
  | '-' :: rest => rest.reverse
  | _ => cs1

/-- Slug candidate derived from the team name in `handleCreateTeam`:
`.toLowerCase()` then the two regex replacements. -/
def slugify (s : String) : String :=
  String.mk (trimHyphens (collapseRuns (s.toList.map Char.toLower)))

/-- JavaScript `String.prototype.trim()`: strip whitespace at both ends. -/
def jsTrim (s : String) : String :=
  String.mk
    (((s.toList.dropWhile Char.isWhitespace).reverse.dropWhile
        Char.isWhitespace).reverse)

/-- The `counter`-suffixed candidate of the slug-uniqueness loop:
`counter > 0 ? slug + '-' + counter : slug`. -/
def slugCandidate (base : String) (k : Nat) : String :=
  if k == 0 then base else base ++ "-" ++ toString k

/-- The `while (slugExists)` loop of `handleCreateTeam`: try suffixes
`0, 1, 2, …` until one is not taken.  At most `teams.length` slugs exist, so
some candidate among the first `teams.length + 1` is always free; the
fallback branch of `find?` is unreachable. -/
def freshSlug (teams : List TeamRow) (base : String) : String :=
  match (List.range (teams.length + 1)).find?
      (fun k => !(teams.any (fun t => t.slug == slugCandidate base k))) with
  | some k => slugCandidate base k
  | none => base

/-- The slice of the database touched by the team handlers, plus the id
counters the store would assign and the number of `activity_logs` rows
written. -/
structure TeamDB where
  teams : List TeamRow
  members : List TeamMemberRow
  users : List UserRow
  logs : Nat
  nextTeamId : Nat
  nextMemberId : Nat
deriving DecidableEq, Repr

/-- Responses of the team-management handlers (constructor per distinct
response body/status actually produced by the modelled handlers). -/
inductive TMResult
  | okTeam (teamId : Nat)
  | okMember
  | okAccepted (teamId : Nat)
  | upgradeRequired
  | nameTooShort
  | permissionDenied
  | memberNotFound
  | ownerChangeDenied
  | invalidInvitation
  | notYourInvitation
  | memberLimitReached
  | internalError
deriving DecidableEq, Repr

/-- Whether a team-management response is the successful-acceptance one. -/
def isAccepted : TMResult → Bool
  | .okAccepted _ => true
  | _ => false

/-- The tiers allowed to create teams in `handleCreateTeam`. -/
def teamCreationTiers : List SubscriptionTier :=
  [.proMonthly, .proYearly, .teamMonthly, .teamYearly, .enterprise]

/-- `handleCreateTeam(supabase, userId, teamData, userTier)`: tier gate,
name-length validation, slug generation with the uniqueness loop, team
insert (`member_limit` takes the schema default 5), insert of the creator as
an `owner`/`active` member, `current_team_id`/`is_team_owner` update on the
creator, and one activity-log row. -/
def handleCreateTeam (db : TeamDB) (uid : Nat) (userTier : SubscriptionTier)
    (name : String) (slugParam : Option String) : TMResult × TeamDB :=
  if !(teamCreationTiers.contains userTier) then
    (.upgradeRequired, db)
  else if (jsTrim name).length < 2 then
    (.nameTooShort, db)
  else
    let base := match slugParam with
      | some s => if s == "" then slugify name else s
      | none => slugify name
    let slug := freshSlug db.teams base
    let team : TeamRow :=
      { id := db.nextTeamId, slug := slug, member_limit := 5, created_by := uid }
    let ownerRow : TeamMemberRow :=
      { id := db.nextMemberId, team_id := team.id, user_id := some uid,
        role := .owner, status := .active, invitation_token := none }
    let users' := db.users.map fun w =>
      if w.id == uid then
        { w with current_team_id := some team.id, is_team_owner := true }
      else w
    (.okTeam team.id,
      { db with
        teams := db.teams ++ [team],
        members := db.members ++ [ownerRow],
        users := users',
        logs := db.logs + 1,
        nextTeamId := db.nextTeamId + 1,
        nextMemberId := db.nextMemberId + 1 })

/-- The `PUT` body of `handleUpdateMember` (the handler forwards it to
`.update(updateData)` unchecked; the fields the table can take are the role
and the status). -/
structure MemberUpdate where
  role : Option TeamRole
  status : Option MemberStatus
deriving DecidableEq, Repr

/-- Apply an unchecked `.update(updateData)` to a membership row. -/
def applyMemberUpdate (m : TeamMemberRow) (u : MemberUpdate) : TeamMemberRow :=
  { m with role := u.role.getD m.role, status := u.status.getD m.status }

/-- `handleUpdateMember(supabase, userId, teamId, memberId, updateData)`:
caller must be an `active` `owner`/`admin` of the team; the target row must
exist in the team; an `admin` (non-owner) may not touch an `owner` row; then
the update is applied as-is — nothing constrains which roles may be written
or how many owners remain. -/
def handleUpdateMember (db : TeamDB) (uid : Nat) (teamId : Nat)
    (memberId : Nat) (upd : MemberUpdate) : TMResult × TeamDB :=
  match singleMatch db.members
      (fun m => m.team_id == teamId && m.user_id == some uid) with
  | none => (.permissionDenied, db)
  | some adminMembership =>
    if !(adminMembership.status == .active &&
          (adminMembership.role == .owner || adminMembership.role == .admin)) then
      (.permissionDenied, db)
    else
      match singleMatch db.members
          (fun m => m.id == memberId && m.team_id == teamId) with
      | none => (.memberNotFound, db)
      | some targetMember =>
        if targetMember.role == .owner && !(adminMembership.role == .owner) then
          (.ownerChangeDenied, db)
        else
          (.okMember,
            { db with members := db.members.map fun m =>
                if m.id == memberId then applyMemberUpdate m upd else m })

/-- `handleAcceptInvitation(supabase, userId, inviteToken)`: find the
`pending` row holding the token (`.single()`, error → 404); reject when the
invitation names a different user; compare the team's `member_limit` with
`current_members:team_members(count)` — a count of *all* membership rows of
the team, with no status filter; then flip the row to `active`, stamp the
accepting user and clear the token, set `current_team_id` when the user has
none, and write one activity-log row. -/
def handleAcceptInvitation (db : TeamDB) (uid : Nat) (token : Nat) :
    TMResult × TeamDB :=
  match singleMatch db.members
      (fun m => m.invitation_token == some token && m.status == .pending) with
  | none => (.invalidInvitation, db)
  | some invitation =>
    if (match invitation.user_id with
        | some target => !(target == uid)
        | none => false) then
      (.notYourInvitation, db)
    else
      let currentMemberCount :=
        db.members.countP (fun m => m.team_id == invitation.team_id)
      match singleMatch db.teams (fun t => t.id == invitation.team_id) with
      | none => (.internalError, db)
      | some team =>
        if team.member_limit ≤ currentMemberCount then
          (.memberLimitReached, db)
        else
          let members' := db.members.map fun m =>
            if m.id == invitation.id then
              { m with user_id := some uid, status := .active,
                       invitation_token := none }
            else m
          let needsCurrentTeam :=
            match singleMatch db.users (fun u => u.id == uid) with
            | some u => u.current_team_id == none
            | none => true
          let users' :=
            if needsCurrentTeam then
              db.users.map fun w =>
                if w.id == uid then
                  { w with current_team_id := some invitation.team_id }
                else w
            else db.users
          (.okAccepted invitation.team_id,
            { db with members := members', users := users',
                      logs := db.logs + 1 })

/-- Number of `active` `owner` rows a team has — the quantity the
one-owner-per-team invariant speaks about. -/
def activeOwnerCount (db : TeamDB) (teamId : Nat) : Nat :=
  db.members.countP
    (fun m => m.team_id == teamId && m.role == .owner && m.status == .active)

/-! ## Specification-side predicates -/

/-- The specification's amended template-visibility rule (C2): what
`checkTemplateAccess` actually enforces, stated declaratively — public and
unlisted templates are open, the creator always has access, `premium` needs
a paid subscription tier, `team` needs an `active` membership of the owning
team.  `isApproved` does not occur: the handler never consults it. -/
def templateVisibleAmended (users : List UserRow) (tms : List TeamMemberRow)
    (tpl : TemplateRow) (user : Option Nat) : Prop :=
  tpl.visibility = TemplateVisibility.publicVis ∨
  tpl.visibility = TemplateVisibility.unlisted ∨
  ∃ uid, user = some uid ∧
    (tpl.created_by = uid ∨
     (tpl.visibility = TemplateVisibility.premium ∧
       ∃ u ∈ users, u.id = uid ∧ u.subscription_tier ∈ premiumTiers) ∨
     (tpl.visibility = TemplateVisibility.teamVis ∧
       ∃ t, tpl.team_id = some t ∧
         ∃ m ∈ tms, m.team_id = t ∧ m.user_id = some uid ∧
           m.status = MemberStatus.active))

/-- The invitation-acceptance guard as the specification words it (C6): a
pending invitation holding the token, a matching target user when one was
named, and the count of the team's rows *in state `active`* strictly below
`memberLimit`. -/
def acceptGuardClaim (db : TeamDB) (uid : Nat) (tok : Nat) : Prop :=
  ∃ inv ∈ db.members, inv.invitation_token = some tok ∧
    inv.status = MemberStatus.pending ∧
    (inv.user_id = none ∨ inv.user_id = some uid) ∧
    ∃ team ∈ db.teams, team.id = inv.team_id ∧
      db.members.countP
          (fun m => m.team_id == inv.team_id && m.status == .active) <
        team.member_limit

/-- The invitation-acceptance guard the code actually enforces (C6 amended):
as `acceptGuardClaim` but the member count ranges over *all* of the team's
membership rows, whatever their status — `pending`, `suspended` and
`removed` rows count against `memberLimit` too. -/
def acceptGuardAmended (db : TeamDB) (uid : Nat) (tok : Nat) : Prop :=
  ∃ inv ∈ db.members, inv.invitation_token = some tok ∧
    inv.status = MemberStatus.pending ∧
    (inv.user_id = none ∨ inv.user_id = some uid) ∧
    ∃ team ∈ db.teams, team.id = inv.team_id ∧
      db.members.countP (fun m => m.team_id == inv.team_id) <
        team.member_limit

/-! ## Concrete states used by witnesses and counterexamples -/

/-- C2: a `public` template that is *not* approved, created by user 10. -/
def c2Template : TemplateRow :=
  { id := 1, created_by := 10, team_id := none,
    visibility := .publicVis, is_approved := false,
    deleted_at := none, view_count := 0 }

/-- C2 witness: a premium-tier user unrelated to `c2Template`. -/
def c2Users : List UserRow :=
  [{ id := 20, subscription_tier := .proMonthly, is_active := true,
     monthly_generations := 0, projects_generated := 0,
     current_team_id := none, is_team_owner := false, deleted_at := none }]

/-- C3: a free-tier user whose monthly counter sits at the limit 3. -/
def c3User : UserRow :=
  { id := 10, subscription_tier := .free, is_active := true,
    monthly_generations := 3, projects_generated := 7,
    current_team_id := none, is_team_owner := false, deleted_at := none }

/-- C3: the database seen by the scaffold handler. -/
def c3DB : ScaffoldDB := { users := [c3User], projects := [], analytics := 0 }

/-- C3: a well-formed generation request. -/
def c3Body : GenRequest :=
  { appIdea := "a todo app", frontendStack := "react",
    backendStack := "supabase", authType := "email", templateId := none }

/-- C4: a team-tier user about to create a team. -/
def c4User : UserRow :=
  { id := 10, subscription_tier := .teamMonthly, is_active := true,
    monthly_generations := 0, projects_generated := 0,
    current_team_id := none, is_team_owner := false, deleted_at := none }

/-- C4: the empty store before `CreateTeam`. -/
def c4DB0 : TeamDB :=
  { teams := [], members := [], users := [c4User],
    logs := 0, nextTeamId := 1, nextMemberId := 1 }

/-- C4: after user 10 creates team 1 (sole active owner). -/
def c4DB1 : TeamDB :=
  (handleCreateTeam c4DB0 10 .teamMonthly "Acme Team" none).2

/-- C4: the owner's `UpdateMember` call demoting the sole owner row to
`member`. -/
def c4Demotion : MemberUpdate := { role := some .member, status := none }

/-- C4: after the owner demotes themselves — no active owner remains. -/
def c4DB2 : TeamDB := (handleUpdateMember c4DB1 10 1 1 c4Demotion).2

/-- C5: team 1 with `member_limit` 5. -/
def c5Team : TeamRow := { id := 1, slug := "acme", member_limit := 5, created_by := 10 }

/-- C5: the active owner and a pending invitation carrying token 42. -/
def c5Members : List TeamMemberRow :=
  [{ id := 1, team_id := 1, user_id := some 10, role := .owner,
     status := .active, invitation_token := none },
   { id := 2, team_id := 1, user_id := none, role := .member,
     status := .pending, invitation_token := some 42 }]

/-- C5: the invited user. -/
def c5UserB : UserRow :=
  { id := 20, subscription_tier := .free, is_active := true,
    monthly_generations := 0, projects_generated := 0,
    current_team_id := none, is_team_owner := false, deleted_at := none }

/-- C5: the store before the first acceptance. -/
def c5DB : TeamDB :=
  { teams := [c5Team], members := c5Members, users := [c5UserB],
    logs := 0, nextTeamId := 2, nextMemberId := 3 }

/-- C5: the store after user 20 accepts token 42. -/
def c5DB1 : TeamDB := (handleAcceptInvitation c5DB 20 42).2

/-- C6: team 1 with `member_limit` 2. -/
def c6Team : TeamRow := { id := 1, slug := "acme", member_limit := 2, created_by := 10 }

/-- C6: one active owner plus the pending invitation (token 77): one `active`
row, two rows in total. -/
def c6Members : List TeamMemberRow :=
  [{ id := 1, team_id := 1, user_id := some 10, role := .owner,
     status := .active, invitation_token := none },
   { id := 2, team_id := 1, user_id := none, role := .member,
     status := .pending, invitation_token := some 77 }]

/-- C6: the store in which the spec's guard passes but the code rejects. -/
def c6DB : TeamDB :=
  { teams := [c6Team], members := c6Members,
    users := [{ id := 20, subscription_tier := .free, is_active := true,
                monthly_generations := 0, projects_generated := 0,
                current_team_id := none, is_team_owner := false,
                deleted_at := none }],
    logs := 0, nextTeamId := 2, nextMemberId := 3 }

/-- C6 witness: as `c6DB` but with room under the limit. -/
def c6RoomyDB : TeamDB :=
  { c6DB with teams := [{ c6Team with member_limit := 5 }] }

/-- C7: a single project owned by user 10. -/
def c7Projects : List ProjectRow :=
  [{ id := 1, user_id := 10, team_id := none, visibility := .privateVis,
     is_public := false, deleted_at := none }]

/-- C8: an approved *private* template created by user 10. -/
def c8Template : TemplateRow :=
  { id := 2, created_by := 10, team_id := none,
    visibility := .privateVis, is_approved := true,
    deleted_at := none, view_count := 0 }

/-- C9: a free-tier user with `monthly_generations = 2` — remaining quota 1
against the limit of 3. -/
def c9User : UserRow :=
  { id := 10, subscription_tier := .free, is_active := true,
    monthly_generations := 2, projects_generated := 5,
    current_team_id := none, is_team_owner := false, deleted_at := none }

/-- C9: two concurrent requests over the shared store. -/
def c9Init : ConcState :=
  { db := { users := [c9User], projects := [], analytics := 0 },
    threads := [.start, .start] }

/-- C9: the racy interleaving — both requests read the counter before either
writes it. -/
def c9RacySched : List Nat := [0, 1, 0, 1]

/-- C10: two projects with different owners. -/
def c10Row1 : ProjectRow :=
  { id := 1, user_id := 10, team_id := none, visibility := .privateVis,
    is_public := false, deleted_at := none }

/-- C10: a public project owned by user 20 — viewable by anyone under the
select policy, yet never listed by `handleGetProjects` for user 10. -/
def c10Row2 : ProjectRow :=
  { id := 2, user_id := 20, team_id := none, visibility := .publicVis,
    is_public := true, deleted_at := none }

/-- C10: the projects table. -/
def c10Projects : List ProjectRow := [c10Row1, c10Row2]

/-! ## Helper lemmas about `singleMatch` -/

/-- When at most one row satisfies `p` (a key/uniqueness constraint),
`.single()` returns `x` exactly when `x` is the row satisfying `p`. -/
theorem singleMatch_some_iff {α : Type} {l : List α} {p : α → Bool}
    (h : l.countP p ≤ 1) (x : α) :
    singleMatch l p = some x ↔ x ∈ l ∧ p x = true := by
  unfold singleMatch
  rw [List.countP_eq_length_filter] at h
  rcases hf : l.filter p with _ | ⟨a, _ | ⟨b, t⟩⟩
  · constructor
    · intro hc; cases hc
    · rintro ⟨hx, hp⟩
      have hmem : x ∈ l.filter p := List.mem_filter.mpr ⟨hx, hp⟩
      rw [hf] at hmem
      cases hmem
  · constructor
    · intro hc
      have ha : a ∈ l.filter p := by rw [hf]; exact List.mem_singleton_self a
      have := List.mem_filter.mp ha
      cases hc
      exact this
    · rintro ⟨hx, hp⟩
      have hmem : x ∈ l.filter p := List.mem_filter.mpr ⟨hx, hp⟩
      rw [hf] at hmem
      rcases List.mem_singleton.mp hmem with rfl
      rfl
  · exfalso
    rw [hf] at h
    simp at h

/-- When at most one row satisfies `p`, `.single()` errors exactly when no
row satisfies `p`. -/
theorem singleMatch_none_iff {α : Type} {l : List α} {p : α → Bool}
    (h : l.countP p ≤ 1) :
    singleMatch l p = none ↔ ∀ x ∈ l, ¬ p x = true := by
  unfold singleMatch
  rw [List.countP_eq_length_filter] at h
  rcases hf : l.filter p with _ | ⟨a, _ | ⟨b, t⟩⟩
  · simp only [true_iff]
    intro x hx hp
    have hmem : x ∈ l.filter p := List.mem_filter.mpr ⟨hx, hp⟩
    rw [hf] at hmem
    cases hmem
  · constructor
    · intro hc; cases hc
    · intro hall
      have ha : a ∈ l.filter p := by rw [hf]; exact List.mem_singleton_self a
      have := List.mem_filter.mp ha
      exact absurd this.2 (hall a this.1)
  · exfalso
    rw [hf] at h
    simp at h

/-- `.single()` errors whenever no row satisfies `p`. -/
theorem singleMatch_eq_none {α : Type} {l : List α} {p : α → Bool}
    (h : ∀ x ∈ l, ¬ p x = true) : singleMatch l p = none := by
  unfold singleMatch
  have hf : l.filter p = [] := List.filter_eq_nil_iff.mpr h
  rw [hf]

/-- Claim C1: the `projects_select_access` policy allows an actor to view a
project if and only if the actor is the owner, or an active member of the
project's team (when it has one), or an active collaborator (any role), or the
project is `visibility=public` with `isPublic=true`; in every branch the
project must not be soft-deleted. -/
theorem projects_select_access_iff_spec (uid : Nat) (p : ProjectRow)
    (tms : List TeamMemberRow) (pcs : List ProjectCollaboratorRow) :
    projects_select_access uid p tms pcs = true ↔
      canViewProjectSpec uid p tms pcs := by
  unfold projects_select_access canViewProjectSpec
  cases h : p.team_id <;>
    simp [h, List.any_eq_true, and_assoc, or_assoc]

/-- A successful `.single()` pins down the whole filter result. -/
theorem singleMatch_filter_eq {α : Type} {l : List α} {p : α → Bool} {x : α}
    (h : singleMatch l p = some x) : l.filter p = [x] := by
  unfold singleMatch at h
  revert h
  rcases hf : l.filter p with _ | ⟨a, _ | ⟨b, t⟩⟩ <;> intro h
  · cases h
  · cases h
    rfl
  · cases h

/-- A row returned by `.single()` is in the table and satisfies the query. -/
theorem singleMatch_mem {α : Type} {l : List α} {p : α → Bool} {x : α}
    (h : singleMatch l p = some x) : x ∈ l ∧ p x = true := by
  have hf := singleMatch_filter_eq h
  have hx : x ∈ l.filter p := by
    rw [hf]
    exact List.mem_singleton_self x
  exact ⟨(List.mem_filter.mp hx).1, (List.mem_filter.mp hx).2⟩

/-- An injective-key (`Nodup`) table has at most one row per key: the shape
of the primary-key and UNIQUE constraints of the schema. -/
theorem countP_le_one_of_nodup_key {α β : Type} [DecidableEq β] (key : α → β)
    {l : List α} (h : (l.map key).Nodup) (p : α → Bool) (k : β)
    (hp : ∀ x, p x = true → key x = k) : l.countP p ≤ 1 := by
  induction l with
  | nil => simp
  | cons a t ih =>
    rw [List.map_cons, List.nodup_cons] at h
    rcases h with ⟨hna, hnd⟩
    rw [List.countP_cons]
    by_cases hpa : p a = true
    · have hk : key a = k := hp a hpa
      have hzero : t.countP p = 0 := by
        rw [List.countP_eq_zero]
        intro x hx hpx
        apply hna
        have hxk : key x = key a := by rw [hp x hpx, hk]
        exact hxk ▸ List.mem_map_of_mem key hx
      simp [hpa, hzero]
    · simp only [hpa, if_false]
      simpa using ih hnd

/-- Claim C3: a caller whose tier maps to an integer limit (not the unlimited
sentinel) and whose monthly counter has reached it gets the 429 quota
response carrying the limit and the current usage; the external generator is
not called, and the store — projects, counters, analytics — is untouched. -/
theorem generateScaffold_quota_blocks (db : ScaffoldDB) (uid : Nat)
    (body : GenRequest) (nid : Nat) (u : UserRow) (L : Int)
    (hu : singleMatch db.users (fun x => x.id == uid) = some u)
    (hL : generationLimits u.subscription_tier = some L)
    (hs : L ≠ -1)
    (hge : L ≤ (u.monthly_generations : Int)) :
    generateScaffoldServe db uid body nid =
      (GenerateResult.quotaExceeded L u.monthly_generations, db, false) := by
  unfold generateScaffoldServe
  rw [hu]
  have hq : quotaBlocked (some L) u.monthly_generations = true := by
    unfold quotaBlocked
    simp [hs, hge]
  simp [hL, hq]

/-- Witness for C3: the free-tier user `c3User` sitting at 3 of 3. -/
theorem generateScaffold_quota_blocks_witness :
    generateScaffoldServe c3DB 10 c3Body 99 =
      (GenerateResult.quotaExceeded 3 3, c3DB, false) :=
  generateScaffold_quota_blocks c3DB 10 c3Body 99 c3User 3
    (by decide) (by decide) (by decide) (by decide)

/-- Claim C4 fails on the code: `CreateTeam` does give team 1 exactly one
active owner, but the owner's own `UpdateMember` call demoting that owner row
to `member` is accepted, leaving the team with zero active owners. -/
theorem team_owner_invariant_violation :
    (handleCreateTeam c4DB0 10 .teamMonthly "Acme Team" none).1 =
      TMResult.okTeam 1 ∧
    activeOwnerCount c4DB1 1 = 1 ∧
    (handleUpdateMember c4DB1 10 1 1 c4Demotion).1 = TMResult.okMember ∧
    activeOwnerCount c4DB2 1 = 0 := by
  decide

/-- Claim C7's counterexample: deleting project 1 removes the row physically
(the table becomes empty — no row with `deletedAt` set remains), and a
subsequent `GetProject` by id yields the generic fetch-failure response, not
a distinct not-found one. -/
theorem deleteProject_hard_delete_counterexample :
    handleDeleteProject c7Projects 10 1 = (DeleteProjectResult.success, []) ∧
    handleGetProjects (handleDeleteProject c7Projects 10 1).2 20 (some 1) =
      GetProjectsResult.fetchFailed := by
  decide

/-- Claim C7 as amended: a successful `DeleteProject` leaves no row with the
deleted id in the table, `GetProjects` for any caller no longer lists it, and
`GetProject` by id fails for every actor (with the handler's fetch-failure
response — the only error this read path produces). -/
theorem deleteProject_removes_row (ps ps' : List ProjectRow) (uid pid : Nat)
    (h : handleDeleteProject ps uid pid = (DeleteProjectResult.success, ps')) :
    (∀ r ∈ ps', r.id ≠ pid) ∧
    (∀ uid2, handleGetProjects ps' uid2 (some pid) =
      GetProjectsResult.fetchFailed) ∧
    (∀ l, handleGetProjects ps' uid none = GetProjectsResult.list l →
      ∀ r ∈ l, r.id ≠ pid) := by
  unfold handleDeleteProject at h
  rcases hm : singleMatch ps (fun p => p.id == pid) with _ | p
  · rw [hm] at h
    simp at h
  · rw [hm] at h
    dsimp only at h
    by_cases hp : (p.user_id == uid) = true
    · rw [if_pos hp] at h
      have hps' : ps' = ps.filter (fun q => !(q.id == pid)) := by
        have h2 := congrArg Prod.snd h
        simpa using h2.symm
      subst hps'
      have hnotin : ∀ r ∈ ps.filter (fun q => !(q.id == pid)), r.id ≠ pid := by
        intro r hr
        have := (List.mem_filter.mp hr).2
        simpa using this
      refine ⟨hnotin, ?_, ?_⟩
      · intro uid2
        unfold handleGetProjects
        dsimp only
        have hnone : singleMatch
            ((ps.filter (fun q => !(q.id == pid))).filter
              (fun q => q.user_id == uid2))
            (fun q => q.id == pid) = none := by
          apply singleMatch_eq_none
          intro x hx
          have hx1 := (List.mem_filter.mp hx).1
          have hne := hnotin x hx1
          simpa using hne
        rw [hnone]
      · intro l hl r hr
        unfold handleGetProjects at hl
        simp only [GetProjectsResult.list.injEq] at hl
        subst hl
        exact hnotin r (List.mem_filter.mp hr).1
    · rw [if_neg hp] at h
      simp at h

/-- Witness for C7's amended theorem: after user 10 deletes project 1, a
by-id read of it by another user fails. -/
theorem deleteProject_removes_row_witness :
    handleGetProjects [] 20 (some 1) = GetProjectsResult.fetchFailed :=
  (deleteProject_removes_row c7Projects [] 10 1 (by decide)).2.1 20

/-- Claim C8's counterexample: user 20 (not the creator, no team relation)
requesting the private template 2 receives the 403 access-denied response —
not the not-found response the claim requires. -/
theorem getTemplate_private_forbidden_counterexample :
    (handleGetTemplate [c8Template] [] [] 2 (some 20)).1 =
      GetTemplateResult.accessDenied ∧
    (handleGetTemplate [c8Template] [] [] 2 (some 20)).1 ≠
      GetTemplateResult.notFound := by
  decide

/-- Claim C8 as amended: for a private template found by id, every
authenticated caller other than the creator is refused with the 403
access-denied response (the handler leaks the template's existence). -/
theorem getTemplate_private_noncreator_denied (templates : List TemplateRow)
    (users : List UserRow) (tms : List TeamMemberRow) (tid uid : Nat)
    (tpl : TemplateRow)
    (hfound : singleMatch templates
      (fun t => t.id == tid && t.deleted_at == none) = some tpl)
    (hvis : tpl.visibility = TemplateVisibility.privateVis)
    (hnc : tpl.created_by ≠ uid) :
    (handleGetTemplate templates users tms tid (some uid)).1 =
      GetTemplateResult.accessDenied := by
  unfold handleGetTemplate
  rw [hfound]
  have hacc : checkTemplateAccess users tms tpl (some uid) = false := by
    unfold checkTemplateAccess
    simp [hvis, hnc]
  simp [hacc]

/-- Witness for C8's amended theorem at the concrete store. -/
theorem getTemplate_private_noncreator_denied_witness :
    (handleGetTemplate [c8Template] [] [] 2 (some 20)).1 =
      GetTemplateResult.accessDenied :=
  getTemplate_private_noncreator_denied [c8Template] [] [] 2 20 c8Template
    (by decide) (by decide) (by decide)

/-- Claim C9 fails on the code: with remaining quota 1 (free tier, counter at
2 of 3), the interleaving in which both requests read the counter before
either writes it lets both succeed — two successes where the claim allows at
most one. -/
theorem quota_race_two_successes :
    successCount (runSched 10 c9Init c9RacySched) = 2 ∧
    generationLimits c9User.subscription_tier = some 3 ∧
    c9User.monthly_generations = 2 := by
  decide

/-- Claim C10: `handleGetProjects` only ever returns projects whose
`user_id` is the caller — both in the list form and in the by-id
(`.single()`) form, so a project owned by someone else is never returned,
whatever its team, collaborator or public visibility. -/
theorem handleGetProjects_owner_only (ps : List ProjectRow) (uid : Nat) :
    (∀ l, handleGetProjects ps uid none = GetProjectsResult.list l →
      ∀ r ∈ l, r.user_id = uid) ∧
    (∀ pid r, handleGetProjects ps uid (some pid) =
      GetProjectsResult.single r → r.user_id = uid) := by
  constructor
  · intro l hl r hr
    unfold handleGetProjects at hl
    simp only [GetProjectsResult.list.injEq] at hl
    subst hl
    have := (List.mem_filter.mp hr).2
    simpa using this
  · intro pid r hr
    unfold handleGetProjects at hr
    dsimp only at hr
    rcases hm : singleMatch (ps.filter (fun p => p.user_id == uid))
        (fun p => p.id == pid) with _ | q
    · rw [hm] at hr
      cases hr
    · rw [hm] at hr
      cases hr
      have hq := (singleMatch_mem hm).1
      have := (List.mem_filter.mp hq).2
      simpa using this

/-- Witness for C10: user 10 gets exactly their own project back, and its
owner field is theirs. -/
theorem handleGetProjects_owner_only_witness :
    handleGetProjects c10Projects 10 none = GetProjectsResult.list [c10Row1] ∧
    c10Row1.user_id = 10 :=
  ⟨by decide,
   (handleGetProjects_owner_only c10Projects 10).1 [c10Row1] (by decide)
     c10Row1 (by decide)⟩

/-- Claim C5: a successful `AcceptInvitation` invalidates the token — no
membership row still carries it as a pending invitation — and a second call
with the same token fails with the 404 invalid-invitation response, leaving
the store untouched. -/
theorem acceptInvitation_single_use (db db' : TeamDB) (uid uid2 tok tid : Nat)
    (h : handleAcceptInvitation db uid tok = (TMResult.okAccepted tid, db')) :
    (∀ m ∈ db'.members,
      ¬ (m.invitation_token == some tok &&
          m.status == MemberStatus.pending) = true) ∧
    handleAcceptInvitation db' uid2 tok = (TMResult.invalidInvitation, db') := by
  unfold handleAcceptInvitation at h
  rcases hm : singleMatch db.members
      (fun m => m.invitation_token == some tok &&
        m.status == MemberStatus.pending) with _ | inv
  · rw [hm] at h
    simp at h
  · rw [hm] at h
    dsimp only at h
    split at h
    · simp at h
    · split at h
      · simp at h
      · split at h
        · simp at h
        · injection h with h1 h2
          subst h2
          have hclear : ∀ m' ∈ (db.members.map fun m =>
              if m.id == inv.id then
                { m with user_id := some uid, status := MemberStatus.active,
                         invitation_token := none }
              else m),
              ¬ (m'.invitation_token == some tok &&
                 m'.status == MemberStatus.pending) = true := by
            intro m' hm'
            rcases List.mem_map.mp hm' with ⟨m, hmem, rfl⟩
            by_cases hid : (m.id == inv.id) = true
            · simp [hid]
            · simp only [hid, if_false, Bool.false_eq_true]
              intro hp
              have hfil := singleMatch_filter_eq hm
              have hmf : m ∈ db.members.filter
                  (fun m => m.invitation_token == some tok &&
                    m.status == MemberStatus.pending) :=
                List.mem_filter.mpr ⟨hmem, hp⟩
              rw [hfil] at hmf
              rcases List.mem_singleton.mp hmf with rfl
              simp at hid
          constructor
          · intro m' hm'
            exact hclear m' hm'
          · unfold handleAcceptInvitation
            have hnone := singleMatch_eq_none hclear
            rw [hnone]

/-- Witness for C5: after user 20 accepts token 42 in `c5DB`, a repeat call
with the same token is rejected with the invalid-invitation response. -/
theorem acceptInvitation_single_use_witness :
    handleAcceptInvitation c5DB1 11 42 =
      (TMResult.invalidInvitation, c5DB1) :=
  (acceptInvitation_single_use c5DB c5DB1 20 11 42 1 (by decide)).2

/-- Claim C6's counterexample: in `c6DB` every guard of the claim holds —
valid pending token 77, no named target user, and only one `active` row
against `memberLimit = 2` — yet the code rejects the acceptance with the
member-limit response and the membership stays pending, because it counts
*all* rows (the pending invitation included). -/
theorem accept_activeCount_counterexample :
    acceptGuardClaim c6DB 20 77 ∧
    handleAcceptInvitation c6DB 20 77 = (TMResult.memberLimitReached, c6DB) := by
  constructor
  · unfold acceptGuardClaim
    decide
  · decide

/-- Claim C6 as amended: `AcceptInvitation` flips the membership to `active`
exactly when a pending row carries the presented token, the invitation's
target user (when named) is the caller, and the count of *all* of the team's
membership rows — any status — is below `memberLimit`; on every failure the
store is left unchanged (the membership stays pending).  The hypotheses are
the store's UNIQUE(invitation_token) and primary-key constraints. -/
theorem acceptInvitation_succeeds_iff_guard (db : TeamDB) (uid tok : Nat)
    (htok : db.members.countP
      (fun m => m.invitation_token == some tok &&
        m.status == MemberStatus.pending) ≤ 1)
    (hteam : (db.teams.map TeamRow.id).Nodup) :
    (isAccepted (handleAcceptInvitation db uid tok).1 = true ↔
      acceptGuardAmended db uid tok) ∧
    (isAccepted (handleAcceptInvitation db uid tok).1 = false →
      (handleAcceptInvitation db uid tok).2 = db) := by
  have hteamCount : ∀ k, db.teams.countP (fun t => t.id == k) ≤ 1 := fun k =>
    countP_le_one_of_nodup_key TeamRow.id hteam _ k
      (fun x hx => by simpa using hx)
  unfold handleAcceptInvitation
  rcases hm : singleMatch db.members
      (fun m => m.invitation_token == some tok &&
        m.status == MemberStatus.pending) with _ | inv
  · constructor
    · constructor
      · intro hacc
        simp [isAccepted] at hacc
      · rintro ⟨inv, hmem, htk, hpend, -, -⟩
        have hnone := (singleMatch_none_iff htok).mp hm inv hmem
        exact absurd (by simp [htk, hpend]) hnone
    · intro _
      rfl
  · have hinvmem := (singleMatch_mem hm).1
    have hinvp := (singleMatch_mem hm).2
    simp only [Bool.and_eq_true, beq_iff_eq] at hinvp
    obtain ⟨htk, hpend⟩ := hinvp
    have huniq : ∀ m ∈ db.members, m.invitation_token = some tok →
        m.status = MemberStatus.pending → m = inv := by
      intro m hmm h1 h2
      have hfil := singleMatch_filter_eq hm
      have hmf : m ∈ db.members.filter
          (fun m => m.invitation_token == some tok &&
            m.status == MemberStatus.pending) :=
        List.mem_filter.mpr ⟨hmm, by simp [h1, h2]⟩
      rw [hfil] at hmf
      exact List.mem_singleton.mp hmf
    dsimp only
    split
    · next hbt =>
      constructor
      · constructor
        · intro hacc
          simp [isAccepted] at hacc
        · rintro ⟨inv', hmem', htk', hpend', humatch, -⟩
          have hinv' : inv' = inv := huniq inv' hmem' htk' hpend'
          subst hinv'
          rcases humatch with h0 | h0 <;> rw [h0] at hbt <;> simp at hbt
      · intro _
        rfl
    · next hbf =>
      rcases ht : singleMatch db.teams (fun t => t.id == inv.team_id)
          with _ | team
      · constructor
        · constructor
          · intro hacc
            simp [isAccepted] at hacc
          · rintro ⟨inv', hmem', htk', hpend', -, team, hteamMem, hid, -⟩
            have hinv' : inv' = inv := huniq inv' hmem' htk' hpend'
            rw [hinv'] at hid
            have hsm : singleMatch db.teams
                (fun t => t.id == inv.team_id) = some team :=
              (singleMatch_some_iff (hteamCount inv.team_id) team).mpr
                ⟨hteamMem, by simp [hid]⟩
            rw [ht] at hsm
            cases hsm
        · intro _
          rfl
      · dsimp only
        split
        · next hlim =>
          constructor
          · constructor
            · intro hacc
              simp [isAccepted] at hacc
            · rintro ⟨inv', hmem', htk', hpend', -, team', hteamMem', hid', hcnt'⟩
              have hinv' : inv' = inv := huniq inv' hmem' htk' hpend'
              rw [hinv'] at hid' hcnt'
              have hsm : singleMatch db.teams
                  (fun t => t.id == inv.team_id) = some team' :=
                (singleMatch_some_iff (hteamCount inv.team_id) team').mpr
                  ⟨hteamMem', by simp [hid']⟩
              rw [ht] at hsm
              injection hsm with hteq
              subst hteq
              exact absurd hcnt' (not_lt.mpr hlim)
          · intro _
            rfl
        · next hlim =>
          constructor
          · constructor
            · intro _
              refine ⟨inv, hinvmem, htk, hpend, ?_, team,
                (singleMatch_mem ht).1, ?_, ?_⟩
              · rcases hiu : inv.user_id with _ | target
                · exact Or.inl rfl
                · right
                  rw [hiu] at hbf
                  simp at hbf
                  rw [hbf]
              · have := (singleMatch_mem ht).2
                simpa using this
              · exact Nat.lt_of_not_le hlim
            · intro _
              rfl
          · intro hfalse
            simp [isAccepted] at hfalse

/-- Witness for C6's amended theorem: in `c6RoomyDB` (limit 5, two rows) the
acceptance of token 77 succeeds and the guard holds. -/
theorem acceptInvitation_succeeds_iff_guard_witness :
    (c6RoomyDB.members.countP
      (fun m => m.invitation_token == some 77 &&
        m.status == MemberStatus.pending) ≤ 1) ∧
    (isAccepted (handleAcceptInvitation c6RoomyDB 20 77).1 = true ↔
      acceptGuardAmended c6RoomyDB 20 77) :=
  ⟨by decide,
   (acceptInvitation_succeeds_iff_guard c6RoomyDB 20 77
     (by decide) (by decide)).1⟩

/-- Claim C2's counterexample: the unapproved public template `c2Template` is
returned in full by `GetTemplate` to user 20, who is not its creator — the
approval gate the claim requires is simply absent from this path. -/
theorem template_unapproved_returned_counterexample :
    (handleGetTemplate [c2Template] c2Users [] 1 (some 20)).1 =
      GetTemplateResult.ok c2Template ∧
    c2Template.is_approved = false ∧
    c2Template.created_by ≠ 20 := by
  decide

/-- Claim C2 as amended: `checkTemplateAccess` grants access exactly by the
visibility rule — public and unlisted to anyone, and to an authenticated
caller who is the creator, or holds a paid tier for a `premium` template, or
is an `active` member of the owning team for a `team` template.  `isApproved`
plays no part.  The hypotheses are the store's primary-key and
UNIQUE(team_id, user_id) constraints. -/
theorem checkTemplateAccess_iff_visibility (users : List UserRow)
    (tms : List TeamMemberRow) (tpl : TemplateRow) (user : Option Nat)
    (hu : (users.map UserRow.id).Nodup)
    (hmk : (tms.map (fun m => (m.team_id, m.user_id))).Nodup) :
    checkTemplateAccess users tms tpl user = true ↔
      templateVisibleAmended users tms tpl user := by
  have hcu : ∀ k, users.countP (fun u => u.id == k) ≤ 1 := fun k =>
    countP_le_one_of_nodup_key UserRow.id hu _ k
      (fun x hx => by simpa using hx)
  have hcm : ∀ t u0, tms.countP
      (fun m => m.team_id == t && m.user_id == u0) ≤ 1 := fun t u0 =>
    countP_le_one_of_nodup_key (fun m => (m.team_id, m.user_id)) hmk _ (t, u0)
      (fun x hx => by
        simp only [Bool.and_eq_true, beq_iff_eq] at hx
        simp [Prod.mk.injEq, hx.1, hx.2])
  unfold checkTemplateAccess templateVisibleAmended
  rcases user with _ | uid
  · cases hv : tpl.visibility <;> simp [hv]
  · cases hv : tpl.visibility
    case publicVis => simp [hv]
    case unlisted => simp [hv]
    case deprecated => by_cases hc : tpl.created_by = uid <;> simp [hv, hc]
    case underReview => by_cases hc : tpl.created_by = uid <;> simp [hv, hc]
    case privateVis => by_cases hc : tpl.created_by = uid <;> simp [hv, hc]
    case premium =>
      by_cases hc : tpl.created_by = uid
      · simp [hv, hc]
      · simp [hv, hc]
        rcases hsm : singleMatch users (fun u => u.id == uid) with _ | u
        · constructor
          · intro h
            cases h
          · rintro ⟨x, hxmem, hxid, -⟩
            have hno := (singleMatch_none_iff (hcu uid)).mp hsm x hxmem
            exact absurd (by simp [hxid]) hno
        · obtain ⟨humem, hup⟩ := singleMatch_mem hsm
          simp only [beq_iff_eq] at hup
          constructor
          · intro hcont
            simp at hcont
            exact ⟨u, humem, hup, hcont⟩
          · rintro ⟨x, hxmem, hxid, hxprem⟩
            have h2 : singleMatch users (fun w => w.id == uid) = some x :=
              (singleMatch_some_iff (hcu uid) x).mpr ⟨hxmem, by simp [hxid]⟩
            rw [hsm] at h2
            injection h2 with hueq
            subst hueq
            simp [hxprem]
    case teamVis =>
      by_cases hc : tpl.created_by = uid
      · simp [hv, hc]
      · rcases htid : tpl.team_id with _ | t
        · simp [hv, hc, htid]
        · simp [hv, hc, htid]
          rcases hsm : singleMatch tms
              (fun tm => tm.team_id == t && tm.user_id == some uid)
              with _ | m
          · constructor
            · intro h
              cases h
            · rintro ⟨x, hxmem, hxt, hxu, -⟩
              have hno :=
                (singleMatch_none_iff (hcm t (some uid))).mp hsm x hxmem
              exact absurd (by simp [hxt, hxu]) hno
          · obtain ⟨hmmem, hmp⟩ := singleMatch_mem hsm
            simp only [Bool.and_eq_true, beq_iff_eq] at hmp
            constructor
            · intro hact
              simp at hact
              exact ⟨m, hmmem, hmp.1, hmp.2, hact⟩
            · rintro ⟨x, hxmem, hxt, hxu, hxact⟩
              have h2 : singleMatch tms
                  (fun tm => tm.team_id == t && tm.user_id == some uid) =
                    some x :=
                (singleMatch_some_iff (hcm t (some uid)) x).mpr
                  ⟨hxmem, by simp [hxt, hxu]⟩
              rw [hsm] at h2
              injection h2 with hmeq
              subst hmeq
              simp [hxact]

/-- Witness for C2's amended theorem: the premium-tier user 20 and the
unapproved public template. -/
theorem checkTemplateAccess_iff_visibility_witness :
    (c2Users.map UserRow.id).Nodup ∧
    (checkTemplateAccess c2Users [] c2Template (some 20) = true ↔
      templateVisibleAmended c2Users [] c2Template (some 20)) :=
  ⟨by decide,
   checkTemplateAccess_iff_visibility c2Users [] c2Template (some 20)
     (by decide) (by decide)⟩

end VibeBuilder
